import Mathlib

/-!
# Shallow embedding of the OpenDevin agent controller

This file embeds `src/opendevin/controller/agent_controller.py` (class
`AgentController`) in Lean. The controller's asynchronous effects are made
explicit: every operation returns, next to the updated controller, the list
of events it published on the event stream (with their source), the number
of `reset()` calls it made on the decision unit, and - for the step cycle -
the exception it let escape, its Python return value, and whether the
controller's own decision unit was consulted.

The decision unit (`self.agent.step`) is modelled as an oracle
`DUOracle : String → State → DUOutcome` keyed by the controller id, since
parent and delegate controllers each own a distinct agent.

The event, observation and execution-state classes live in modules of the
repository that are not part of the provided sources, so they are modelled
from the spec's data model (section 3); each such definition carries a
`Modelled from the spec:` note. The controller logic itself is translated
from `agent_controller.py` alone.

The `delegate` field of the Python class is an optional self-reference; to
keep the type a plain (non-nested) inductive we represent a controller with
no delegate as `AgentController.leaf` and one holding a delegate as
`AgentController.node`, which is isomorphic to the optional field.
-/

namespace OpenDevin

/-- Modelled from the spec: the `AgentState` enum of
`opendevin.core.schema` (not under the provided sources): `Loading,
Running, Stopped, Error, AwaitingUserInput, Finished`. -/
inductive AgentState where
  | loading
  | running
  | stopped
  | error
  | awaitingUserInput
  | finished
  deriving DecidableEq, Repr

/-- Modelled from the spec: events carry a source tag, `User` or `Agent`. -/
inductive EventSource where
  | user
  | agent
  deriving DecidableEq, Repr

/-- Modelled from the spec: the closed family of Action variants consumed by
the controller: `Message(waitForResponse)`, `AgentDelegate(targetAgentKind,
inputs)`, `AddTask(parent, goal, subtasks)`, `ModifyTask(taskId, state)`,
`AgentFinish(outputs)`, `ChangeAgentState(newState)`, `Null`. Mappings are
association lists. -/
inductive ActionKind where
  | message (content : String) (waitForResponse : Bool)
  | agentDelegate (agent : String) (inputs : List (String × String))
  | addTask (parent : String) (goal : String) (subtasks : List String)
  | modifyTask (taskId : String) (state : String)
  | agentFinish (outputs : List (String × String))
  | changeAgentState (newState : AgentState)
  | nullAction
  deriving DecidableEq, Repr

/-- Modelled from the spec: each action carries an identity used for causal
correlation, a source tag, and a `runnable` flag. -/
structure Action where
  id : Nat
  source : EventSource
  runnable : Bool
  kind : ActionKind
  deriving DecidableEq, Repr

/-- Modelled from the spec: the Observation variants consumed or produced by
the controller: `Null`, `Error(message)`, `AgentStateChanged(newState)`,
`AgentDelegate(content, outputs)`. -/
inductive ObservationKind where
  | nullObservation
  | errorObservation (message : String)
  | agentStateChanged (newState : AgentState)
  | agentDelegate (content : String) (outputs : List (String × String))
  deriving DecidableEq, Repr

/-- Modelled from the spec: an observation optionally carries a `cause`
reference to the identity of the action it resolves. -/
structure Observation where
  cause : Option Nat
  kind : ObservationKind
  deriving DecidableEq, Repr

/-- An event is either an action or an observation (the two closed
families of the spec's data model). -/
inductive Event where
  | action (a : Action)
  | observation (o : Observation)
  deriving DecidableEq, Repr

/-- The fresh `NullAction()` constructed by the controller. -/
def NullAction : Action := ⟨0, .agent, false, .nullAction⟩

/-- The fresh `NullObservation('')` constructed by the controller. -/
def NullObservation : Observation := ⟨none, .nullObservation⟩

/-- `ErrorObservation(message)` as published by the controller. -/
def ErrorObservation (message : String) : Observation :=
  ⟨none, .errorObservation message⟩

/-- `AgentStateChangedObservation('', newState)` as published by
`set_agent_state_to` (the empty content string is not modelled). -/
def AgentStateChangedObservation (s : AgentState) : Observation :=
  ⟨none, .agentStateChanged s⟩

/-- `AgentDelegateObservation(content='', outputs=outputs)` as published on
delegate completion. -/
def AgentDelegateObservation (outputs : List (String × String)) : Observation :=
  ⟨none, .agentDelegate "" outputs⟩

/-- `isinstance(o, NullObservation)`. -/
def Observation.isNull : Observation → Bool
  | ⟨_, .nullObservation⟩ => true
  | _ => false

/-- `isinstance(o, ErrorObservation)`. -/
def Observation.isError : Observation → Bool
  | ⟨_, .errorObservation _⟩ => true
  | _ => false

/-- Modelled from the spec: the Plan is an external collaborator mutated
through exactly two operations; we record the sequence of mutator calls the
controller forwards to it. -/
inductive PlanOp where
  | addSubtask (parent : String) (goal : String) (subtasks : List String)
  | setSubtaskState (taskId : String) (state : String)
  deriving DecidableEq, Repr

/-- Modelled from the spec: the Execution State record
(`opendevin.controller.state.state.State`, not under the provided sources):
iteration counter, cumulative character budget usage, append-only history,
per-cycle delta (`updated_info`), plan, outputs and construction-time
inputs. -/
structure State where
  iteration : Nat
  numOfChars : Nat
  history : List (Action × Observation)
  updatedInfo : List (Action × Observation)
  plan : List PlanOp
  outputs : List (String × String)
  inputs : List (String × String)
  deriving DecidableEq, Repr

/-- Modelled from the spec: `State(inputs=inputs or {})` - a fresh
execution state with all counters zero and all sequences empty. -/
def State.initial (inputs : List (String × String)) : State :=
  ⟨0, 0, [], [], [], [], inputs⟩

/-- `add_history`: append the pair to both `history` and `updated_info`.
The `TypeError` contract checks of the Python method are enforced by the
Lean types and need no runtime branch. -/
def State.addHistory (s : State) (a : Action) (o : Observation) : State :=
  { s with
    history := s.history ++ [(a, o)]
    updatedInfo := s.updatedInfo ++ [(a, o)] }

/-- The per-controller fields of `AgentController` other than the optional
`delegate`: `id`, `max_iterations`, `max_chars`, `state`, `_agent_state`
and `_pending_action`. The class annotates `state: State` and the
constructor always assigns it, so the field is total here; the defensive
`if self.state is None` branches of `_step` and `_is_stuck` are
unrepresentable dead code in the typed model. -/
structure Frame where
  id : String
  maxIterations : Nat
  maxChars : Nat
  state : State
  agentState : AgentState
  pendingAction : Option Action
  deriving DecidableEq, Repr

/-- An `AgentController`: its frame plus the optional delegate
(`leaf` = `delegate is None`, `node` = delegate present). -/
inductive AgentController where
  | leaf (f : Frame)
  | node (f : Frame) (delegate : AgentController)
  deriving DecidableEq, Repr

/-- The controller's own fields. -/
def AgentController.frame : AgentController → Frame
  | .leaf f => f
  | .node f _ => f

/-- The optional `delegate` field. -/
def AgentController.delegate : AgentController → Option AgentController
  | .leaf _ => none
  | .node _ d => some d

def AgentController.id (c : AgentController) : String := c.frame.id

def AgentController.maxIterations (c : AgentController) : Nat := c.frame.maxIterations

def AgentController.maxChars (c : AgentController) : Nat := c.frame.maxChars

def AgentController.state (c : AgentController) : State := c.frame.state

/-- `get_agent_state()`. -/
def AgentController.agentState (c : AgentController) : AgentState := c.frame.agentState

def AgentController.pendingAction (c : AgentController) : Option Action := c.frame.pendingAction

/-- Replace the controller's own fields, keeping its delegate. -/
def AgentController.withFrame : AgentController → Frame → AgentController
  | .leaf _, g => .leaf g
  | .node _ d, g => .node g d

/-- `self.state = s`. -/
def AgentController.withState (c : AgentController) (s : State) : AgentController :=
  c.withFrame { c.frame with state := s }

/-- `self._pending_action = p`. -/
def AgentController.withPending (c : AgentController) (p : Option Action) : AgentController :=
  c.withFrame { c.frame with pendingAction := p }

/-- `self.delegate = d`. -/
def AgentController.setDelegate : AgentController → Option AgentController → AgentController
  | .leaf f, none => .leaf f
  | .leaf f, some d => .node f d
  | .node f _, none => .leaf f
  | .node f _, some d => .node f d

/-- Result of an effectful controller operation: the updated controller,
the events it published (with source), and how many times it called the
decision unit's `reset()`. -/
structure TransitionResult where
  ctrl : AgentController
  published : List (Event × EventSource)
  resetCalls : Nat
  deriving DecidableEq, Repr

/-- `set_agent_state_to(new_state)`: no-op when the state is unchanged;
otherwise assign the new state, call `reset()` when entering `STOPPED` or
`ERROR`, and publish a single `AgentStateChangedObservation`. -/
def AgentController.setAgentStateTo (c : AgentController) (newState : AgentState) :
    TransitionResult :=
  if newState = c.agentState then ⟨c, [], 0⟩
  else
    ⟨c.withFrame { c.frame with agentState := newState },
     [(.observation (AgentStateChangedObservation newState), .agent)],
     if newState = .stopped ∨ newState = .error then 1 else 0⟩

/-- `start_delegate(action)`: construct a child controller subscribed to the
same stream with id `parentId + "-delegate"`, the parent's budgets, a fresh
execution state holding the action's inputs, and the class defaults
`LOADING` / no pending action / no delegate. The agent-class lookup
(`Agent.get_cls`) resolves the child's decision unit, which the oracle
model keys by controller id. -/
def AgentController.startDelegate (c : AgentController) (_agentKind : String)
    (inputs : List (String × String)) : AgentController :=
  c.setDelegate (some (.leaf
    ⟨c.id ++ "-delegate", c.maxIterations, c.maxChars,
     State.initial inputs, .loading, none⟩))

/-- `on_event(event)`: the dispatch table of the controller's bus handler,
branch for branch in the order of the `isinstance` chain. -/
def AgentController.onEvent (c : AgentController) (e : Event) : TransitionResult :=
  match e with
  | .action a =>
    match a.kind with
    | .changeAgentState s => c.setAgentStateTo s
    | .message _ wait =>
      if a.source = .user then
        let c1 := c.withState (c.state.addHistory a NullObservation)
        if c1.agentState ≠ .running then c1.setAgentStateTo .running
        else ⟨c1, [], 0⟩
      else if a.source = .agent ∧ wait = true then
        c.setAgentStateTo .awaitingUserInput
      else ⟨c, [], 0⟩
    | .agentDelegate agentKind inputs => ⟨c.startDelegate agentKind inputs, [], 0⟩
    | .addTask parent goal subtasks =>
      ⟨c.withState { c.state with plan := c.state.plan ++ [.addSubtask parent goal subtasks] }, [], 0⟩
    | .modifyTask taskId st =>
      ⟨c.withState { c.state with plan := c.state.plan ++ [.setSubtaskState taskId st] }, [], 0⟩
    | .agentFinish outs =>
      (c.withState { c.state with outputs := outs }).setAgentStateTo .finished
    | .nullAction => ⟨c, [], 0⟩
  | .observation o =>
    match c.pendingAction with
    | some pa =>
      if o.cause = some pa.id then
        ⟨(c.withState (c.state.addHistory pa o)).withPending none, [], 0⟩
      else
        ⟨c.withState (c.state.addHistory NullAction o), [], 0⟩
    | none => ⟨c.withState (c.state.addHistory NullAction o), [], 0⟩

/-- The history window test of `_is_stuck`: at least three entries, the last
three actions equal by value, and the last three observations either all
`NullObservation` or all `ErrorObservation`. -/
def stuckHistory (s : State) : Bool :=
  match s.history.reverse with
  | (a1, o1) :: (a2, o2) :: (a3, o3) :: _ =>
    if a1 = a3 ∧ a2 = a3 then
      if o1.isNull && o2.isNull && o3.isNull then true
      else if o1.isError && o2.isError && o3.isError then true
      else false
    else false
  | _ => false

/-- `_is_stuck()`: a stuck delegate makes the parent stuck; otherwise the
history window test. -/
def AgentController.isStuck : AgentController → Bool
  | .leaf f => stuckHistory f.state
  | .node f d => d.isStuck || stuckHistory f.state

/-- The recoverable decision-layer exceptions caught inside `_step`:
`AgentMalformedActionError`, `AgentNoActionError`, `LLMOutputError`. -/
inductive RecoverableError where
  | malformedAction (message : String)
  | noAction (message : String)
  | llmOutput (message : String)
  deriving DecidableEq, Repr

/-- `str(e)` for a recoverable exception. -/
def RecoverableError.message : RecoverableError → String
  | .malformedAction m => m
  | .noAction m => m
  | .llmOutput m => m

/-- One call of the decision unit `self.agent.step(self.state)`: it returns
an action, returns `None`, or raises one of the recoverable exceptions. -/
inductive DUOutcome where
  | act (a : Action)
  | returnedNone
  | raised (e : RecoverableError)
  deriving DecidableEq, Repr

/-- The decision units of a delegation chain, as an oracle keyed by the
controller id (each controller owns its own agent). -/
def DUOracle : Type := String → State → DUOutcome

/-- The exceptions `_step` lets escape to the run loop:
`MaxCharsExceedError`, and the `AttributeError` hit when the decision unit
returns `None` (the caught `AgentNoActionError` leaves `action = None`
bound, so `action.runnable` then fails). -/
inductive StepError where
  | maxCharsExceed (numChars : Nat) (maxChars : Nat)
  | noneTypeAttributeError
  deriving DecidableEq, Repr

/-- Result of one `_step()` call: the updated controller, the published
events, the escaping exception if any, the truthiness of the Python return
value (`_step` only ever executes bare `return`, i.e. `None`), whether this
controller's own decision unit was consulted, and the `reset()` calls
made. -/
structure StepResult where
  ctrl : AgentController
  published : List (Event × EventSource)
  threw : Option StepError
  returned : Bool
  consultedDU : Bool
  resetCalls : Nat
  deriving DecidableEq, Repr

/-- The tail of `_step` after the decision call has produced `action` (the
proposed action, or `NullAction` when a recoverable exception was caught
and reported via `pub1`): clear `updated_info`, set the action pending when
runnable or record it with a null observation otherwise, publish it unless
it is the `NullAction`, then run the stuck detector and on detection report
the error and force the `ERROR` state. -/
def stepTail (f : Frame) (s1 : State) (action : Action)
    (pub1 : List (Event × EventSource)) : StepResult :=
  let s2 := { s1 with updatedInfo := [] }
  let pending := if action.runnable then some action else f.pendingAction
  let s3 := if action.runnable then s2 else s2.addHistory action NullObservation
  let pubA : List (Event × EventSource) :=
    if action.kind = .nullAction then [] else [(.action action, .agent)]
  let c1 : AgentController := .leaf { f with state := s3, pendingAction := pending }
  if c1.isStuck then
    let t := c1.setAgentStateTo .error
    ⟨t.ctrl,
     pub1 ++ pubA ++ [(.observation (ErrorObservation "Agent got stuck in a loop"), .agent)]
       ++ t.published,
     none, false, true, t.resetCalls⟩
  else
    ⟨c1, pub1 ++ pubA, none, false, true, 0⟩

/-- The own-progress part of `_step`, reached when the controller is
running, has no pending action and no delegate: the character-budget check,
the iteration increment, and the guarded decision call. -/
def stepOwn (du : DUOracle) (f : Frame) : StepResult :=
  if f.maxChars < f.state.numOfChars then
    ⟨.leaf f, [], some (.maxCharsExceed f.state.numOfChars f.maxChars), false, false, 0⟩
  else
    let s1 := { f.state with iteration := f.state.iteration + 1 }
    match du f.id s1 with
    | .act a => stepTail f s1 a []
    | .raised e =>
      stepTail f s1 NullAction [(.observation (ErrorObservation e.message), .agent)]
    | .returnedNone =>
      ⟨.leaf { f with state := { s1 with updatedInfo := [] } },
       [(.observation (ErrorObservation "No action was returned"), .agent)],
       some .noneTypeAttributeError, false, true, 0⟩

/-- The delegate branch of `_step`, combining the parent frame with the
result `r` of the recursive `self.delegate._step()` call: an exception
escaping the delegate's step propagates to the parent; otherwise
`delegate_done` - the truthiness of the delegate step's `None` return
value - selects between the completion branch (collect the delegate's
outputs, publish an `AgentDelegate` observation, drop the delegate) and
keeping the delegate. -/
def stepDelegate (f : Frame) (r : StepResult) : StepResult :=
  match r.threw with
  | some err => ⟨.node f r.ctrl, r.published, some err, false, false, r.resetCalls⟩
  | none =>
    if r.returned then
      ⟨.leaf f,
       r.published
         ++ [(.observation (AgentDelegateObservation r.ctrl.state.outputs), .agent)],
       none, false, false, r.resetCalls⟩
    else ⟨.node f r.ctrl, r.published, none, false, false, r.resetCalls⟩

/-- `_step()`. A controller that is not `RUNNING`, or holds a pending
action, idles. A controller holding a delegate recursively steps the
delegate and resolves the result via `stepDelegate`. Otherwise the
controller makes own progress via `stepOwn`. -/
def AgentController.step (du : DUOracle) : AgentController → StepResult
  | .leaf f =>
    if f.agentState ≠ .running then ⟨.leaf f, [], none, false, false, 0⟩
    else if f.pendingAction.isSome then ⟨.leaf f, [], none, false, false, 0⟩
    else stepOwn du f
  | .node f d =>
    if f.agentState ≠ .running then ⟨.node f d, [], none, false, false, 0⟩
    else if f.pendingAction.isSome then ⟨.node f d, [], none, false, false, 0⟩
    else stepDelegate f (d.step du)

/-- Whether the run loop keeps going after the attempted step. -/
inductive LoopOutcome where
  | next
  | terminated
  deriving DecidableEq, Repr

/-- Result of one iteration of `_start_run_loop`. -/
structure LoopResult where
  ctrl : AgentController
  published : List (Event × EventSource)
  resetCalls : Nat
  outcome : LoopOutcome
  deriving DecidableEq, Repr

/-- One iteration of the `while True` body of `_start_run_loop`: attempt a
step; on an escaping exception report a generic error observation, force
the `ERROR` state, and terminate the loop permanently; otherwise continue
to the next tick. Cooperative cancellation is outside the model. -/
def runLoopIteration (du : DUOracle) (c : AgentController) : LoopResult :=
  let r := c.step du
  match r.threw with
  | none => ⟨r.ctrl, r.published, r.resetCalls, .next⟩
  | some _ =>
    let t := r.ctrl.setAgentStateTo .error
    ⟨t.ctrl,
     r.published
       ++ [(.observation (ErrorObservation "There was an unexpected error while running the agent"), .agent)]
       ++ t.published,
     r.resetCalls + t.resetCalls, .terminated⟩

/-! ## Helper lemmas -/

theorem frame_withFrame (c : AgentController) (g : Frame) : (c.withFrame g).frame = g := by
  cases c <;> rfl

theorem stepTail_returned (f : Frame) (s1 : State) (a : Action)
    (pub1 : List (Event × EventSource)) : (stepTail f s1 a pub1).returned = false := by
  unfold stepTail
  dsimp only
  split <;> split <;> rfl

theorem stepOwn_returned (du : DUOracle) (f : Frame) : (stepOwn du f).returned = false := by
  unfold stepOwn
  split
  · rfl
  · simp only []
    split <;> first | rfl | apply stepTail_returned

theorem step_returned (du : DUOracle) (c : AgentController) : (c.step du).returned = false := by
  cases c with
  | leaf f =>
    simp only [AgentController.step]
    split
    · rfl
    · split
      · rfl
      · exact stepOwn_returned du f
  | node f d =>
    simp only [AgentController.step]
    split
    · rfl
    · split
      · rfl
      · rcases d.step du with ⟨ctrl, pub, threw, ret, cons, rc⟩
        cases threw
        · unfold stepDelegate
          dsimp only
          split <;> rfl
        · rfl

/-! ## Claims -/

/-- A delegate controller that has reached `Finished` holding outputs. -/
def delegateFinished : AgentController :=
  .leaf ⟨"default-delegate", 100, 10000,
    { State.initial [] with outputs := [("result", "ok")] }, .finished, none⟩

/-- A running parent whose delegate has already finished. -/
def parentWithFinishedDelegate : AgentController :=
  .node ⟨"default", 100, 10000, State.initial [], .running, none⟩ delegateFinished

/-- C1: a running controller with no pending action and a delegate recursively
steps the delegate, but `_step` returns `None` on every path, so
`delegate_done` is never truthy and the completion branch - collect the
delegate's outputs, publish an `AgentDelegate` observation carrying them,
clear the delegate - is unreachable: even with the delegate already in
`Finished` state holding outputs, the parent's step publishes nothing and
keeps the delegate reference, for every decision-unit oracle. -/
theorem step_delegate_completion_unreachable :
    (∀ (du : DUOracle) (c : AgentController), (c.step du).returned = false) ∧
    (∀ du : DUOracle,
      (parentWithFinishedDelegate.step du).ctrl = parentWithFinishedDelegate ∧
      (parentWithFinishedDelegate.step du).published = [] ∧
      (parentWithFinishedDelegate.step du).threw = none) :=
  ⟨step_returned, fun _ => ⟨rfl, rfl, rfl⟩⟩

/-- A controller whose iteration count (100) far exceeds its iteration
budget (`max_iterations = 3`). -/
def overIterationCtrl : AgentController :=
  .leaf ⟨"default", 3, 10000, { State.initial [] with iteration := 100 }, .running, none⟩

/-- A decision unit that keeps proposing the same non-runnable message. -/
def overIterationDU : DUOracle :=
  fun _ _ => .act ⟨5, .agent, false, .message "the same thought" false⟩

/-- C2: the iteration budget is not enforced: `max_iterations` is stored by
the constructor but never consulted by `_step` or `_start_run_loop`, so a
controller whose iteration count already exceeds it steps normally - no
exception escapes, the iteration advances again, the agent stays `Running`
and the run loop schedules the next tick instead of terminating in
`Error`. -/
theorem iteration_budget_not_enforced :
    overIterationCtrl.maxIterations < overIterationCtrl.state.iteration ∧
    (overIterationCtrl.step overIterationDU).threw = none ∧
    (overIterationCtrl.step overIterationDU).ctrl.state.iteration = 101 ∧
    (overIterationCtrl.step overIterationDU).ctrl.agentState = .running ∧
    (runLoopIteration overIterationDU overIterationCtrl).outcome = .next :=
  ⟨by decide, rfl, rfl, rfl, rfl⟩

/-- C7: `set_agent_state_to(s)` with `s` equal to the current state returns
the controller unchanged, publishes nothing and calls no `reset()`; with a
different `s` it sets the current state to `s`, publishes exactly one
`AgentStateChanged` observation, and calls the decision unit's `reset()`
exactly once when the transition enters `Stopped` or `Error` and not at
all otherwise. -/
theorem setAgentStateTo_spec (c : AgentController) (s : AgentState) :
    (s = c.agentState → c.setAgentStateTo s = ⟨c, [], 0⟩) ∧
    (s ≠ c.agentState →
      (c.setAgentStateTo s).ctrl.agentState = s ∧
      (c.setAgentStateTo s).published =
        [(.observation (AgentStateChangedObservation s), .agent)] ∧
      (c.setAgentStateTo s).resetCalls =
        (if s = .stopped ∨ s = .error then 1 else 0)) := by
  constructor
  · intro h
    simp [AgentController.setAgentStateTo, h]
  · intro h
    have h2 : ¬ s = c.frame.agentState := h
    refine ⟨?_, ?_, ?_⟩ <;>
      simp [AgentController.setAgentStateTo, AgentController.agentState, h2,
        frame_withFrame]

/-- A plain running controller. -/
def plainRunningCtrl : AgentController :=
  .leaf ⟨"default", 100, 10000, State.initial [], .running, none⟩

/-- Witness for C7 at a running controller: transitioning to `Running` is a
no-op, transitioning to `Stopped` publishes one state-change observation
and resets exactly once. -/
theorem setAgentStateTo_spec_witness :
    plainRunningCtrl.setAgentStateTo .running = ⟨plainRunningCtrl, [], 0⟩ ∧
    (plainRunningCtrl.setAgentStateTo .stopped).published =
      [(.observation (AgentStateChangedObservation .stopped), .agent)] ∧
    (plainRunningCtrl.setAgentStateTo .stopped).resetCalls = 1 := by
  refine ⟨(setAgentStateTo_spec plainRunningCtrl .running).1 rfl, ?_, ?_⟩
  · exact ((setAgentStateTo_spec plainRunningCtrl .stopped).2 (by decide)).2.1
  · exact (((setAgentStateTo_spec plainRunningCtrl .stopped).2 (by decide)).2.2).trans (by decide)

/-- C10: a `Message` event whose source is `Agent` with
`wait_for_response = false` matches no branch of the `on_event` dispatch
chain: the controller (state, history, pending action, plan, outputs) is
returned unchanged, nothing is published and no `reset()` happens. -/
theorem onEvent_agent_message_ignored (c : AgentController) (i : Nat) (r : Bool)
    (content : String) :
    c.onEvent (.action ⟨i, .agent, r, .message content false⟩) = ⟨c, [], 0⟩ := rfl


theorem stepTail_consultedDU (f : Frame) (s1 : State) (a : Action)
    (pub1 : List (Event × EventSource)) : (stepTail f s1 a pub1).consultedDU = true := by
  unfold stepTail
  dsimp only
  split <;> split <;> rfl

theorem stepOwn_consultedDU (du : DUOracle) (f : Frame)
    (h : ¬ f.maxChars < f.state.numOfChars) : (stepOwn du f).consultedDU = true := by
  unfold stepOwn
  rw [if_neg h]
  simp only []
  split <;> first | rfl | apply stepTail_consultedDU

/-- A controller that has reached the terminal `Finished` state. -/
def finishedCtrl : AgentController :=
  .leaf ⟨"default", 100, 10000, State.initial [], .finished, none⟩

/-- A `ChangeAgentState(RUNNING)` action event. -/
def changeToRunningEvent : Event :=
  .action ⟨1, .user, false, .changeAgentState .running⟩

/-- A decision unit proposing a non-null, non-runnable message action. -/
def proposeMessageDU : DUOracle :=
  fun _ _ => .act ⟨7, .agent, false, .message "hello" false⟩

/-- C3 counterexample: a controller resting in the terminal `Finished`
state that subsequently receives a `ChangeAgentState(Running)` event
returns to `Running` without being reconstructed, and on its next step it
consults the decision unit again and publishes a new action - so a
terminal state does not by itself end the controller for every sequence of
subsequently delivered events. -/
theorem terminal_state_not_absorbing :
    finishedCtrl.agentState = .finished ∧
    (finishedCtrl.onEvent changeToRunningEvent).ctrl.agentState = .running ∧
    ((finishedCtrl.onEvent changeToRunningEvent).ctrl.step proposeMessageDU).consultedDU
      = true ∧
    ((finishedCtrl.onEvent changeToRunningEvent).ctrl.step proposeMessageDU).published
      = [(.action ⟨7, .agent, false, .message "hello" false⟩, .agent)] :=
  ⟨rfl, rfl, rfl, rfl⟩

/-- C3 (amended): while a controller sits in a terminal state (`Stopped`,
`Error` or `Finished`), `_step` does nothing: the controller is returned
unchanged, nothing is published, no exception escapes and the decision
unit is not consulted. This holds only as long as no subsequently
delivered event moves the controller out of the terminal state - a later
`ChangeAgentState` action or user `Message` returns it to `Running`
without reconstruction. -/
theorem terminal_state_step_idle (du : DUOracle) (c : AgentController)
    (h : c.agentState = .stopped ∨ c.agentState = .error ∨ c.agentState = .finished) :
    (c.step du).ctrl = c ∧ (c.step du).published = [] ∧
    (c.step du).consultedDU = false ∧ (c.step du).threw = none := by
  have hne : c.agentState ≠ .running := by
    rcases h with h | h | h <;> simp [h]
  cases c with
  | leaf f =>
    have h2 : f.agentState ≠ .running := hne
    simp [AgentController.step, h2]
  | node f d =>
    have h2 : f.agentState ≠ .running := hne
    simp [AgentController.step, h2]

/-- A controller resting in the terminal `Stopped` state. -/
def stoppedCtrl : AgentController :=
  .leaf ⟨"default", 100, 10000, State.initial [], .stopped, none⟩

/-- Witness for the amended C3 at a concrete `Stopped` controller. -/
theorem terminal_state_step_idle_witness :
    (stoppedCtrl.step proposeMessageDU).ctrl = stoppedCtrl ∧
    (stoppedCtrl.step proposeMessageDU).published = [] ∧
    (stoppedCtrl.step proposeMessageDU).consultedDU = false ∧
    (stoppedCtrl.step proposeMessageDU).threw = none :=
  terminal_state_step_idle proposeMessageDU stoppedCtrl (Or.inl rfl)

/-- C8: for a running controller with no pending action and no delegate,
the step raises `MaxCharsExceedError` exactly when `num_of_chars` strictly
exceeds `max_chars`, and the run loop turns the escaping exception into a
permanent termination with the controller forced into `Error`; when the
budget is not exceeded the step instead proceeds to consult the decision
unit. -/
theorem char_budget_spec (du : DUOracle) (c : AgentController)
    (hr : c.agentState = .running) (hp : c.pendingAction = none)
    (hd : c.delegate = none) :
    (c.maxChars < c.state.numOfChars →
      (c.step du).threw = some (.maxCharsExceed c.state.numOfChars c.maxChars) ∧
      (runLoopIteration du c).outcome = .terminated ∧
      (runLoopIteration du c).ctrl.agentState = .error) ∧
    (¬ c.maxChars < c.state.numOfChars → (c.step du).consultedDU = true) := by
  cases c with
  | node f d => simp [AgentController.delegate] at hd
  | leaf f =>
    have hr2 : f.agentState = .running := hr
    have hp2 : f.pendingAction = none := hp
    constructor
    · intro hover
      have hover2 : f.maxChars < f.state.numOfChars := hover
      have hstep : (AgentController.leaf f).step du =
          ⟨.leaf f, [], some (.maxCharsExceed f.state.numOfChars f.maxChars),
           false, false, 0⟩ := by
        simp [AgentController.step, hr2, hp2, stepOwn, hover2]
      refine ⟨by rw [hstep]; rfl, ?_, ?_⟩ <;>
        simp [runLoopIteration, hstep, AgentController.setAgentStateTo,
          AgentController.agentState, AgentController.frame,
          AgentController.withFrame, hr2]
    · intro hnot
      have hnot2 : ¬ f.maxChars < f.state.numOfChars := hnot
      have hred : (AgentController.leaf f).step du = stepOwn du f := by
        simp [AgentController.step, hr2, hp2]
      rw [hred]
      exact stepOwn_consultedDU du f hnot2

/-- Scenario B: `max_chars = 10` and `num_of_chars` has reached 11. -/
def overCharsCtrl : AgentController :=
  .leaf ⟨"default", 100, 10, { State.initial [] with numOfChars := 11 }, .running, none⟩

/-- A decision unit for the character-budget witness. -/
def overCharsDU : DUOracle :=
  fun _ _ => .act ⟨9, .agent, false, .message "m" false⟩

/-- Witness for C8 at Scenario B: chars 11 over budget 10 raise the
budget-exceeded condition and the controller ends in `Error`. -/
theorem char_budget_spec_witness :
    overCharsCtrl.maxChars < overCharsCtrl.state.numOfChars ∧
    (overCharsCtrl.step overCharsDU).threw =
      some (.maxCharsExceed overCharsCtrl.state.numOfChars overCharsCtrl.maxChars) ∧
    (runLoopIteration overCharsDU overCharsCtrl).outcome = .terminated ∧
    (runLoopIteration overCharsDU overCharsCtrl).ctrl.agentState = .error := by
  have h := (char_budget_spec overCharsDU overCharsCtrl rfl rfl rfl).1 (by decide)
  exact ⟨by decide, h.1, h.2.1, h.2.2⟩


theorem stepTail_threw (f : Frame) (s1 : State) (a : Action)
    (pub1 : List (Event × EventSource)) : (stepTail f s1 a pub1).threw = none := by
  unfold stepTail
  dsimp only
  split <;> split <;> rfl

theorem stepTail_nullAction (f : Frame) (s1 : State)
    (pub1 : List (Event × EventSource)) (hrun : f.agentState = .running) :
    (stepTail f s1 NullAction pub1).ctrl.state.history
      = s1.history ++ [(NullAction, NullObservation)] ∧
    ((stepTail f s1 NullAction pub1).published = pub1 ∨
     (stepTail f s1 NullAction pub1).published =
       pub1 ++ [(.observation (ErrorObservation "Agent got stuck in a loop"), .agent),
                (.observation (AgentStateChangedObservation .error), .agent)]) := by
  unfold stepTail
  simp only [NullAction]
  simp only [Bool.false_eq_true, if_false]
  constructor
  · split
    · simp [AgentController.setAgentStateTo, AgentController.agentState,
        AgentController.frame, AgentController.withFrame, AgentController.state,
        hrun, State.addHistory]
    · simp [AgentController.state, AgentController.frame, State.addHistory]
  · split
    · right
      simp [AgentController.setAgentStateTo, AgentController.agentState,
        AgentController.frame, hrun]
    · left
      simp

/-- C9: when the decision unit raises one of the recoverable exceptions
(`AgentMalformedActionError`, `AgentNoActionError`, `LLMOutputError`)
inside a step that reached the decision call, the exception is caught in
the step: no exception escapes, an error observation with the exception
message is published, the step behaves as if the implicit no-op
`NullAction` had been produced - it is appended to history paired with a
`Null` observation and is not published as an action - and the run loop
continues to the next tick instead of terminating. -/
theorem recoverable_error_spec (du : DUOracle) (c : AgentController)
    (e : RecoverableError)
    (hr : c.agentState = .running) (hp : c.pendingAction = none)
    (hd : c.delegate = none) (hc : ¬ c.maxChars < c.state.numOfChars)
    (hdu : du c.id { c.state with iteration := c.state.iteration + 1 } = .raised e) :
    (c.step du).threw = none ∧
    (.observation (ErrorObservation e.message), EventSource.agent)
      ∈ (c.step du).published ∧
    (c.step du).ctrl.state.history
      = c.state.history ++ [(NullAction, NullObservation)] ∧
    (∀ (a : Action) (src : EventSource), (.action a, src) ∉ (c.step du).published) ∧
    (runLoopIteration du c).outcome = .next := by
  cases c with
  | node f d => simp [AgentController.delegate] at hd
  | leaf f =>
    have hr2 : f.agentState = .running := hr
    have hp2 : f.pendingAction = none := hp
    have hc2 : ¬ f.maxChars < f.state.numOfChars := hc
    have hdu2 : du f.id { f.state with iteration := f.state.iteration + 1 }
        = .raised e := hdu
    have hred : (AgentController.leaf f).step du =
        stepTail f { f.state with iteration := f.state.iteration + 1 } NullAction
          [(.observation (ErrorObservation e.message), .agent)] := by
      simp [AgentController.step, hr2, hp2, stepOwn, if_neg hc2, hdu2]
    have htail := stepTail_nullAction f { f.state with iteration := f.state.iteration + 1 }
      [(.observation (ErrorObservation e.message), .agent)] hr2
    have ht : ((AgentController.leaf f).step du).threw = none := by
      rw [hred]; apply stepTail_threw
    refine ⟨ht, ?_, ?_, ?_, ?_⟩
    · rw [hred]
      rcases htail.2 with h | h <;> simp [h]
    · rw [hred]
      exact htail.1
    · intro a src
      rw [hred]
      rcases htail.2 with h | h <;> simp [h]
    · simp [runLoopIteration, ht]

/-- A fresh running controller whose decision unit always raises
`AgentMalformedActionError`. -/
def raisingCtrl : AgentController :=
  .leaf ⟨"default", 100, 10000, State.initial [], .running, none⟩

/-- A decision unit that always raises a malformed-action exception. -/
def raisingDU : DUOracle :=
  fun _ _ => .raised (.malformedAction "Invalid action")

/-- Witness for C9: a malformed-action exception is caught, reported as an
error observation, recorded as a no-op history entry, and the loop goes
on. -/
theorem recoverable_error_spec_witness :
    (raisingCtrl.step raisingDU).threw = none ∧
    (.observation (ErrorObservation "Invalid action"), EventSource.agent)
      ∈ (raisingCtrl.step raisingDU).published ∧
    (raisingCtrl.step raisingDU).ctrl.state.history
      = raisingCtrl.state.history ++ [(NullAction, NullObservation)] ∧
    (runLoopIteration raisingDU raisingCtrl).outcome = .next := by
  have h := recoverable_error_spec raisingDU raisingCtrl (.malformedAction "Invalid action")
    rfl rfl rfl (by decide) rfl
  exact ⟨h.1, h.2.1, h.2.2.1, h.2.2.2.2⟩


theorem withFrame_state (c : AgentController) (g : Frame) :
    (c.withFrame g).state = g.state := by
  cases c <;> rfl

theorem withFrame_pendingAction (c : AgentController) (g : Frame) :
    (c.withFrame g).pendingAction = g.pendingAction := by
  cases c <;> rfl

theorem withState_pendingAction (c : AgentController) (s : State) :
    (c.withState s).pendingAction = c.pendingAction := by
  simp [AgentController.withState, AgentController.pendingAction, frame_withFrame]

theorem withState_state (c : AgentController) (s : State) :
    (c.withState s).state = s := by
  simp [AgentController.withState, AgentController.state, frame_withFrame]

theorem setAgentStateTo_pendingAction (c : AgentController) (s : AgentState) :
    (c.setAgentStateTo s).ctrl.pendingAction = c.pendingAction := by
  unfold AgentController.setAgentStateTo
  split
  · rfl
  · simp [AgentController.pendingAction, frame_withFrame]

theorem setDelegate_frame (c : AgentController) (d : Option AgentController) :
    (c.setDelegate d).frame = c.frame := by
  cases c <;> cases d <;> rfl

/-- C6: on a delivered `Observation` event, if a pending action exists and
the observation's `cause` equals its identity, the pair
`(pendingAction, observation)` is appended to history and the pending slot
is cleared; in every other case - no pending action, or a `cause` that
does not match - the pair `(NullAction, observation)` is appended instead
and the pending slot is left untouched, so an unsolicited observation is
recorded rather than dropped. -/
theorem onEvent_observation_spec (c : AgentController) (o : Observation) :
    (∀ a, c.pendingAction = some a →
      (o.cause = some a.id →
        (c.onEvent (.observation o)).ctrl.state.history
          = c.state.history ++ [(a, o)] ∧
        (c.onEvent (.observation o)).ctrl.pendingAction = none) ∧
      (o.cause ≠ some a.id →
        (c.onEvent (.observation o)).ctrl.state.history
          = c.state.history ++ [(NullAction, o)] ∧
        (c.onEvent (.observation o)).ctrl.pendingAction = some a)) ∧
    (c.pendingAction = none →
      (c.onEvent (.observation o)).ctrl.state.history
        = c.state.history ++ [(NullAction, o)] ∧
      (c.onEvent (.observation o)).ctrl.pendingAction = none) := by
  have he : c.onEvent (.observation o) =
      match c.pendingAction with
      | some pa =>
        if o.cause = some pa.id then
          ⟨(c.withState (c.state.addHistory pa o)).withPending none, [], 0⟩
        else ⟨c.withState (c.state.addHistory NullAction o), [], 0⟩
      | none => ⟨c.withState (c.state.addHistory NullAction o), [], 0⟩ := rfl
  constructor
  · intro a ha
    constructor
    · intro hc
      simp only [he, ha, if_pos hc]
      constructor
      · simp [AgentController.withPending, AgentController.withState,
          withFrame_state, frame_withFrame, State.addHistory]
      · simp [AgentController.withPending, AgentController.withState,
          withFrame_pendingAction, frame_withFrame]
    · intro hc
      simp only [he, ha, if_neg hc]
      constructor
      · simp [withState_state, State.addHistory]
      · simp [withState_pendingAction, ha]
  · intro ha
    simp only [he, ha]
    constructor
    · simp [withState_state, State.addHistory]
    · simp [withState_pendingAction, ha]

/-- A controller holding the pending runnable action with identity 42. -/
def pendingCtrl : AgentController :=
  .leaf ⟨"default", 100, 10000, State.initial [], .running,
    some ⟨42, .agent, true, .message "run" false⟩⟩

/-- An observation whose `cause` matches the pending action identity 42. -/
def matchingObs : Observation := ⟨some 42, .nullObservation⟩

/-- An observation whose `cause` (7) matches no pending action. -/
def unrelatedObs : Observation := ⟨some 7, .errorObservation "boom"⟩

/-- Witness for C6: the correlated observation is paired with the pending
action and clears it; the unsolicited one is paired with `NullAction` and
leaves the pending action pending. -/
theorem onEvent_observation_spec_witness :
    (pendingCtrl.onEvent (.observation matchingObs)).ctrl.state.history
      = pendingCtrl.state.history
        ++ [(⟨42, .agent, true, .message "run" false⟩, matchingObs)] ∧
    (pendingCtrl.onEvent (.observation matchingObs)).ctrl.pendingAction = none ∧
    (pendingCtrl.onEvent (.observation unrelatedObs)).ctrl.state.history
      = pendingCtrl.state.history ++ [(NullAction, unrelatedObs)] ∧
    (pendingCtrl.onEvent (.observation unrelatedObs)).ctrl.pendingAction
      = some ⟨42, .agent, true, .message "run" false⟩ := by
  have h1 := ((onEvent_observation_spec pendingCtrl matchingObs).1
    ⟨42, .agent, true, .message "run" false⟩ rfl).1 rfl
  have h2 := ((onEvent_observation_spec pendingCtrl unrelatedObs).1
    ⟨42, .agent, true, .message "run" false⟩ rfl).2 (by decide)
  exact ⟨h1.1, h1.2, h2.1, h2.2⟩

/-- C5: the pending-action slot enforces backpressure. First conjunct: a
step taken while any pending action is outstanding returns the controller
unchanged, publishes nothing (in particular issues no new action), does
not consult the decision unit and throws nothing. Second conjunct: no
event handler invocation ever installs a different pending action - it
either leaves the slot exactly as it was or clears it, and clearing
happens only for an `Observation` event whose `cause` equals the pending
action's identity. -/
theorem pending_action_discipline :
    (∀ (du : DUOracle) (c : AgentController) (a : Action), c.pendingAction = some a →
      (c.step du).ctrl = c ∧ (c.step du).published = [] ∧
      (c.step du).consultedDU = false ∧ (c.step du).threw = none) ∧
    (∀ (c : AgentController) (e : Event),
      (c.onEvent e).ctrl.pendingAction = c.pendingAction ∨
      (∃ (a : Action) (o : Observation), c.pendingAction = some a ∧
        e = .observation o ∧ o.cause = some a.id ∧
        (c.onEvent e).ctrl.pendingAction = none)) := by
  constructor
  · intro du c a ha
    cases c with
    | leaf f =>
      have ha2 : f.pendingAction = some a := ha
      by_cases hrun : f.agentState = .running
      · simp [AgentController.step, hrun, ha2]
      · simp [AgentController.step, hrun]
    | node f d =>
      have ha2 : f.pendingAction = some a := ha
      by_cases hrun : f.agentState = .running
      · simp [AgentController.step, hrun, ha2]
      · simp [AgentController.step, hrun]
  · intro c e
    cases e with
    | action a =>
      left
      rcases a with ⟨i, src, rn, k⟩
      cases k with
      | message content wait =>
        by_cases hsrc : src = EventSource.user
        · simp only [AgentController.onEvent]
          rw [if_pos hsrc]
          split <;> simp [setAgentStateTo_pendingAction, withState_pendingAction]
        · by_cases hw : src = EventSource.agent ∧ wait = true
          · simp [AgentController.onEvent, hsrc, hw, setAgentStateTo_pendingAction]
          · simp [AgentController.onEvent, hsrc, hw]
      | changeAgentState s =>
        simp [AgentController.onEvent, setAgentStateTo_pendingAction]
      | agentDelegate agentKind inputs =>
        simp [AgentController.onEvent, AgentController.startDelegate,
          AgentController.pendingAction, setDelegate_frame]
      | addTask parent goal subtasks =>
        simp [AgentController.onEvent, withState_pendingAction]
      | modifyTask taskId st =>
        simp [AgentController.onEvent, withState_pendingAction]
      | agentFinish outs =>
        simp [AgentController.onEvent, setAgentStateTo_pendingAction,
          withState_pendingAction]
      | nullAction =>
        simp [AgentController.onEvent]
    | observation o =>
      rcases hpa : c.pendingAction with _ | pa
      · left
        simp [AgentController.onEvent, hpa, withState_pendingAction]
      · by_cases hc : o.cause = some pa.id
        · right
          refine ⟨pa, o, rfl, rfl, hc, ?_⟩
          simp [AgentController.onEvent, hpa, hc, AgentController.withPending,
            withFrame_pendingAction]
        · left
          simp [AgentController.onEvent, hpa, hc, withState_pendingAction]

/-- A running controller holding a pending action, and a decision unit
that would propose a further runnable action if consulted. -/
def busyCtrl : AgentController :=
  .leaf ⟨"default", 100, 10000, State.initial [], .running,
    some ⟨11, .agent, true, .message "cmd" false⟩⟩

/-- The decision unit for the C5 witness. -/
def busyDU : DUOracle :=
  fun _ _ => .act ⟨12, .agent, true, .message "other" false⟩

/-- Witness for C5: with a pending action outstanding, the step idles -
same controller, nothing published, decision unit not consulted. -/
theorem pending_action_discipline_witness :
    (busyCtrl.step busyDU).ctrl = busyCtrl ∧
    (busyCtrl.step busyDU).published = [] ∧
    (busyCtrl.step busyDU).consultedDU = false := by
  have h := pending_action_discipline.1 busyDU busyCtrl
    ⟨11, .agent, true, .message "cmd" false⟩ rfl
  exact ⟨h.1, h.2.1, h.2.2.1⟩


theorem stuckHistory_iff (s : State) :
    stuckHistory s = true ↔
      ∃ (a1 a2 a3 : Action) (o1 o2 o3 : Observation)
        (rest : List (Action × Observation)),
        s.history.reverse = (a1, o1) :: (a2, o2) :: (a3, o3) :: rest ∧
        a1 = a3 ∧ a2 = a3 ∧
        ((o1.isNull = true ∧ o2.isNull = true ∧ o3.isNull = true) ∨
         (o1.isError = true ∧ o2.isError = true ∧ o3.isError = true)) := by
  rcases hrev : s.history.reverse with _ | ⟨⟨a1, o1⟩, _ | ⟨⟨a2, o2⟩, _ | ⟨⟨a3, o3⟩, rest⟩⟩⟩
  · have hred : stuckHistory s = false := by
      unfold stuckHistory
      rw [hrev]
    simp [hred]
  · have hred : stuckHistory s = false := by
      unfold stuckHistory
      rw [hrev]
    simp [hred]
  · have hred : stuckHistory s = false := by
      unfold stuckHistory
      rw [hrev]
    simp [hred]
  · have hred : stuckHistory s =
        (if a1 = a3 ∧ a2 = a3 then
          if (o1.isNull && o2.isNull && o3.isNull) = true then true
          else if (o1.isError && o2.isError && o3.isError) = true then true else false
        else false) := by
      unfold stuckHistory
      rw [hrev]
    rw [hred]
    constructor
    · intro h
      split_ifs at h with h1 h2 h3
      · exact ⟨a1, a2, a3, o1, o2, o3, rest, rfl, h1.1, h1.2,
          Or.inl (by simpa [and_assoc] using h2)⟩
      · exact ⟨a1, a2, a3, o1, o2, o3, rest, rfl, h1.1, h1.2,
          Or.inr (by simpa [and_assoc] using h3)⟩
    · rintro ⟨b1, b2, b3, p1, p2, p3, rest2, heq, hb1, hb2, hobs⟩
      simp only [List.cons.injEq, Prod.mk.injEq] at heq
      obtain ⟨⟨ea1, eo1⟩, ⟨ea2, eo2⟩, ⟨ea3, eo3⟩, _⟩ := heq
      subst ea1
      subst ea2
      subst ea3
      subst eo1
      subst eo2
      subst eo3
      rw [if_pos ⟨hb1, hb2⟩]
      rcases hobs with ⟨hn1, hn2, hn3⟩ | ⟨he1, he2, he3⟩
      · rw [if_pos (by simp [hn1, hn2, hn3])]
      · by_cases hN : (o1.isNull && o2.isNull && o3.isNull) = true
        · rw [if_pos hN]
        · rw [if_neg hN, if_pos (by simp [he1, he2, he3])]

/-- C4: the stuck-loop detector returns true exactly when the active
delegate (checked recursively) is stuck, or the history holds at least
three entries, the last three entries carry value-equal actions, and the
three paired observations are either all `Null` or all `Error`; in every
other case - fewer than three entries, unequal actions, or mixed
observation kinds such as `Error`, `Null`, `Error` - it returns false. -/
theorem isStuck_iff (c : AgentController) :
    c.isStuck = true ↔
      ((∃ d, c.delegate = some d ∧ d.isStuck = true) ∨
       (∃ (a1 a2 a3 : Action) (o1 o2 o3 : Observation)
          (rest : List (Action × Observation)),
          c.state.history.reverse = (a1, o1) :: (a2, o2) :: (a3, o3) :: rest ∧
          a1 = a3 ∧ a2 = a3 ∧
          ((o1.isNull = true ∧ o2.isNull = true ∧ o3.isNull = true) ∨
           (o1.isError = true ∧ o2.isError = true ∧ o3.isError = true)))) := by
  cases c with
  | leaf f =>
    simp only [AgentController.isStuck, AgentController.delegate,
      AgentController.state, AgentController.frame]
    rw [stuckHistory_iff]
    simp
  | node f d =>
    simp only [AgentController.isStuck, AgentController.delegate,
      AgentController.state, AgentController.frame, Bool.or_eq_true]
    rw [stuckHistory_iff]
    simp

end OpenDevin
